import Mathlib

/-!
Shallow embedding of the RSMISC virtual machine
(src/operand.rs, src/instruction.rs, src/rsmisc.rs).

Conventions of the embedding:
* machine integers are `Nat`, with an explicit `% 2 ^ 16` exactly where the
  source uses wrapping u16 arithmetic;
* a Rust panic (array index out of bounds, `wrapping_div` by zero) is
  `Option.none` for the memory accessors and `StepResult.panic` for the
  instruction handlers — a panic aborts the process, it is not a value of
  `RsmiscError`;
* `Result<T, RsmiscError>` is `Option (Except RsmiscError T)` for the memory
  accessors (the `Option` layer carries the possible panic; every non-panicking
  path of `load_32`/`load_16` is `Ok` in the source, but the `Err` match arms of
  the callers are kept) and `StepResult` for the handlers;
* the `message: String` field of `RsmiscError` is cosmetic formatting of `ip`
  and is omitted; the `code` values are the ones of the source
  (-2 CALL_STACK_EMPTY, -3 UNIMPLEMENTED_SOFTWARE_INTERRUPT,
  -4 NO_ELEMENTS_IN_STACK, -5 INVALID_UNLOAD_TARGET, -6 INVALID_MOVE_TARGET);
* `rsmisc.rs` reads a field `instruction.imm` that `Instruction` does not
  declare (its fields are `target_imm` and `source_imm`); those reads are
  rendered here as `target_imm`, the side the surrounding code is about
  (the SWI selector, the ULD store address, the immediate of a resolved
  operand);
* `execute_next` feeds the `u32` result of `load_32` to `Instruction::from`,
  whose parameter is `u64`; the only value-preserving reading is
  zero-extension, which is what applying the 48-bit field extraction to the
  32-bit value below does.
-/

/-- `enum Operand` of src/operand.rs. -/
inductive Operand where
  | R1
  | R2
  | R3
  | R4
  | IP
  | CT
  | MA
deriving DecidableEq

/-- `OPERAND_COUNT` of src/operand.rs. -/
def OPERAND_COUNT : Nat := 7

/-- `Operand::get_combination_target` of src/operand.rs. -/
def Operand.get_combination_target (operand_combination : Nat) : Operand :=
  match operand_combination / OPERAND_COUNT with
  | 0 => Operand.R1
  | 1 => Operand.R2
  | 2 => Operand.R3
  | 3 => Operand.R4
  | 4 => Operand.IP
  | 5 => Operand.CT
  | 6 => Operand.MA
  | _ => Operand.R1

/-- `Operand::get_combination_source` of src/operand.rs. -/
def Operand.get_combination_source (operand_combination : Nat) : Operand :=
  match operand_combination % OPERAND_COUNT with
  | 0 => Operand.R1
  | 1 => Operand.R2
  | 2 => Operand.R3
  | 3 => Operand.R4
  | 4 => Operand.IP
  | 5 => Operand.CT
  | 6 => Operand.MA
  | _ => Operand.R1

/-- `enum Opcode` of src/instruction.rs. -/
inductive Opcode where
  | HALT
  | ADD
  | SUB
  | MUL
  | DIV
  | MOV
  | LD
  | ULD
  | BZ
  | SWI
  | CALL
  | RET
  | NOP
deriving DecidableEq

/-- The opcode-byte match inside `From<u64> for Instruction` of
src/instruction.rs. -/
def Opcode.ofByte (op : Nat) : Opcode :=
  match op with
  | 0x0 => Opcode.HALT
  | 0x1 => Opcode.ADD
  | 0x2 => Opcode.SUB
  | 0x3 => Opcode.MUL
  | 0x4 => Opcode.DIV
  | 0x5 => Opcode.MOV
  | 0x6 => Opcode.LD
  | 0x7 => Opcode.ULD
  | 0x8 => Opcode.BZ
  | 0x9 => Opcode.SWI
  | 0xA => Opcode.CALL
  | 0xB => Opcode.RET
  | _ => Opcode.NOP

/-- `struct Instruction` of src/instruction.rs. -/
structure Instruction where
  op_code : Opcode
  target : Operand
  source : Operand
  target_imm : Nat
  source_imm : Nat
deriving DecidableEq

/-- `From<u64> for Instruction` of src/instruction.rs ("Instruction size is
48 bits"). The `as u16` casts of the source are value-preserving: each
immediate is `byte ||| byte <<< 8 < 2 ^ 16`. -/
def Instruction.fromTword (tword : Nat) : Instruction :=
  let op := (tword >>> 40) &&& 0xff
  let operand_combination := (tword >>> 32) &&& 0xff
  let target_imm := ((tword >>> 24) &&& 0xff) ||| (((tword >>> 16) &&& 0xff) <<< 8)
  let source_imm := ((tword >>> 8) &&& 0xff) ||| ((tword &&& 0xff) <<< 8)
  { op_code := Opcode.ofByte op
    target := Operand.get_combination_target operand_combination
    source := Operand.get_combination_source operand_combination
    target_imm := target_imm
    source_imm := source_imm }

/-- The length of `memory: [u8; 0xffff]` of src/rsmisc.rs — 65535 bytes
(the adjacent comment says "64 KiB", which would be 0x10000). -/
def MEMSIZE : Nat := 0xffff

/-- `2 ^ 16`, the modulus of wrapping u16 arithmetic. -/
def U16MOD : Nat := 0x10000

/-- `struct RsmiscError` of src/rsmisc.rs, `message` omitted (it only
formats `ip` into text). -/
structure RsmiscError where
  code : Int
deriving DecidableEq

/-- `struct Rsmisc` of src/rsmisc.rs. `registers i` is `registers[i]`. -/
structure Rsmisc where
  memory : Nat → Nat
  ip : Nat
  registers : Fin 4 → Nat
  stack : List Nat
  call_stack : List Nat

/-- Outcome of a `&mut self` method returning `Result<bool, RsmiscError>`:
`panic` aborts the process, `err e m` is `Err(e)` with the machine left as
`m`, `ok cont m` is `Ok(cont)` with the machine left as `m`. -/
inductive StepResult where
  | panic : StepResult
  | err : RsmiscError → Rsmisc → StepResult
  | ok : Bool → Rsmisc → StepResult

/-- A single array store `memory[address] = value`. -/
def updMem (memory : Nat → Nat) (address value : Nat) : Nat → Nat :=
  fun x => if x = address then value else memory x

/-- A single array store `registers[index] = value`. -/
def updReg (registers : Fin 4 → Nat) (index : Fin 4) (value : Nat) : Fin 4 → Nat :=
  fun x => if x = index then value else registers x

/-- The loop of `Rsmisc::new`: `for address in 0..length
{ result.memory[address] = program[address] }`; `none` is the index panic
raised as soon as `address` reaches the array length. -/
def writeProgram (memory : Nat → Nat) (address : Nat) : List Nat → Option (Nat → Nat)
  | [] => some memory
  | b :: rest =>
    if address < MEMSIZE then writeProgram (updMem memory address b) (address + 1) rest
    else none

/-- `Rsmisc::new` of src/rsmisc.rs. The source's `Result` is always `Ok`;
`none` models the index panic when the program is longer than the array. -/
def Rsmisc.new (program : List Nat) : Option Rsmisc :=
  match writeProgram (fun _ => 0) 0 program with
  | some memory =>
    some { memory := memory, ip := 0, registers := fun _ => 0, stack := [], call_stack := [] }
  | none => none

/-- `Rsmisc::load_32` of src/rsmisc.rs: four byte reads at `address + 0` ..
`address + 3`, assembled `b3 | b2 << 8 | b1 << 16 | b0 << 24`. The guard is
the bound check of the four array indexings; an out-of-range index panics
(`none`) — the non-panicking result is always `Ok`. -/
def Rsmisc.load_32 (m : Rsmisc) (address : Nat) : Option (Except RsmiscError Nat) :=
  if address + 0 < MEMSIZE ∧ address + 1 < MEMSIZE ∧ address + 2 < MEMSIZE ∧
      address + 3 < MEMSIZE then
    let b0 := m.memory (address + 0)
    let b1 := m.memory (address + 1)
    let b2 := m.memory (address + 2)
    let b3 := m.memory (address + 3)
    some (Except.ok (b3 ||| (b2 <<< 8) ||| (b1 <<< 16) ||| (b0 <<< 24)))
  else none

/-- `Rsmisc::store_32` of src/rsmisc.rs (modelled for completeness). -/
def Rsmisc.store_32 (m : Rsmisc) (address dword : Nat) : Option Rsmisc :=
  if address + 0 < MEMSIZE ∧ address + 1 < MEMSIZE ∧ address + 2 < MEMSIZE ∧
      address + 3 < MEMSIZE then
    let b0 := (dword &&& 0xff000000) >>> 24
    let b1 := (dword &&& 0xff0000) >>> 16
    let b2 := (dword &&& 0xff00) >>> 8
    let b3 := dword &&& 0xff
    let memory := updMem (updMem (updMem (updMem m.memory (address + 0) b0) (address + 1) b1) (address + 2) b2) (address + 3) b3
    some { m with memory := memory }
  else none

/-- `Rsmisc::load_16` of src/rsmisc.rs: two byte reads at `address + 0` and
`address + 1`, assembled `b1 | b0 << 8` (big-endian). `none` is the index
panic; the non-panicking result is always `Ok`. -/
def Rsmisc.load_16 (m : Rsmisc) (address : Nat) : Option (Except RsmiscError Nat) :=
  if address + 0 < MEMSIZE ∧ address + 1 < MEMSIZE then
    let b0 := m.memory (address + 0)
    let b1 := m.memory (address + 1)
    some (Except.ok (b1 ||| (b0 <<< 8)))
  else none

/-- `Rsmisc::store_16` of src/rsmisc.rs: big-endian 16-bit store; `none` is
the index panic. -/
def Rsmisc.store_16 (m : Rsmisc) (address value : Nat) : Option Rsmisc :=
  if address + 0 < MEMSIZE ∧ address + 1 < MEMSIZE then
    let b0 := (value &&& 0xff00) >>> 8
    let b1 := value &&& 0xff
    let memory := updMem (updMem m.memory (address + 0) b0) (address + 1) b1
    some { m with memory := memory }
  else none

/-- `Rsmisc::get_operand_value` of src/rsmisc.rs. `CT` reads the
instruction's immediate, `MA` reads two memory bytes at the immediate
(the source writes `instruction.imm`; see the header note). -/
def Rsmisc.get_operand_value (m : Rsmisc) (instruction : Instruction) (operand : Operand) :
    Option (Except RsmiscError Nat) :=
  match operand with
  | Operand.R1 => some (Except.ok (m.registers 0))
  | Operand.R2 => some (Except.ok (m.registers 1))
  | Operand.R3 => some (Except.ok (m.registers 2))
  | Operand.R4 => some (Except.ok (m.registers 3))
  | Operand.IP => some (Except.ok m.ip)
  | Operand.CT => some (Except.ok instruction.target_imm)
  | Operand.MA => m.load_16 instruction.target_imm

/-- `enum ArithmeticOperation` (declared by `pub mod arithmetic_operation`
of src/rsmisc.rs; its four variants are the ones matched in
`arithmetic_operation`). -/
inductive ArithmeticOperation where
  | Add
  | Sub
  | Mul
  | Div
deriving DecidableEq

/-- `Rsmisc::arithmetic_operation` of src/rsmisc.rs. `wrapping_add`,
`wrapping_sub` and `wrapping_mul` on u16 are arithmetic modulo `2 ^ 16`;
`wrapping_div` on u16 is plain truncating division, and it panics when the
divisor is zero — there is no error return for that case in the source. -/
def Rsmisc.arithmetic_operation (m : Rsmisc) (instruction : Instruction)
    (operation : ArithmeticOperation) : StepResult :=
  match m.get_operand_value instruction instruction.target,
      m.get_operand_value instruction instruction.source with
  | some (Except.ok target), some (Except.ok source) =>
    match operation with
    | ArithmeticOperation.Add =>
      StepResult.ok true { m with stack := ((target + source) % U16MOD) :: m.stack }
    | ArithmeticOperation.Sub =>
      StepResult.ok true
        { m with stack := ((target + (U16MOD - source % U16MOD)) % U16MOD) :: m.stack }
    | ArithmeticOperation.Mul =>
      StepResult.ok true { m with stack := ((target * source) % U16MOD) :: m.stack }
    | ArithmeticOperation.Div =>
      if source = 0 then StepResult.panic
      else StepResult.ok true { m with stack := (target / source) :: m.stack }
  | some (Except.ok _), some (Except.error e) => StepResult.err e m
  | some (Except.error e), some (Except.ok _) => StepResult.err e m
  | some (Except.error e), some (Except.error _) => StepResult.err e m
  | none, _ => StepResult.panic
  | _, none => StepResult.panic

/-- `Rsmisc::halt` of src/rsmisc.rs (tracing dropped). -/
def Rsmisc.halt (m : Rsmisc) (_instruction : Instruction) : StepResult :=
  StepResult.ok false m

/-- `Rsmisc::add` of src/rsmisc.rs. -/
def Rsmisc.add (m : Rsmisc) (instruction : Instruction) : StepResult :=
  m.arithmetic_operation instruction ArithmeticOperation.Add

/-- `Rsmisc::sub` of src/rsmisc.rs. -/
def Rsmisc.sub (m : Rsmisc) (instruction : Instruction) : StepResult :=
  m.arithmetic_operation instruction ArithmeticOperation.Sub

/-- `Rsmisc::mul` of src/rsmisc.rs. -/
def Rsmisc.mul (m : Rsmisc) (instruction : Instruction) : StepResult :=
  m.arithmetic_operation instruction ArithmeticOperation.Mul

/-- `Rsmisc::div` of src/rsmisc.rs. -/
def Rsmisc.div (m : Rsmisc) (instruction : Instruction) : StepResult :=
  m.arithmetic_operation instruction ArithmeticOperation.Div

/-- `Rsmisc::mov` of src/rsmisc.rs. CT and MA targets yield
INVALID_MOVE_TARGET (-6). -/
def Rsmisc.mov (m : Rsmisc) (instruction : Instruction) : StepResult :=
  match m.get_operand_value instruction instruction.source with
  | some (Except.ok source) =>
    match instruction.target with
    | Operand.R1 => StepResult.ok true { m with registers := updReg m.registers 0 source }
    | Operand.R2 => StepResult.ok true { m with registers := updReg m.registers 1 source }
    | Operand.R3 => StepResult.ok true { m with registers := updReg m.registers 2 source }
    | Operand.R4 => StepResult.ok true { m with registers := updReg m.registers 3 source }
    | Operand.IP => StepResult.ok true { m with ip := source }
    | Operand.CT => StepResult.err { code := -6 } m
    | Operand.MA => StepResult.err { code := -6 } m
  | some (Except.error e) => StepResult.err e m
  | none => StepResult.panic

/-- `Rsmisc::ld` of src/rsmisc.rs. -/
def Rsmisc.ld (m : Rsmisc) (instruction : Instruction) : StepResult :=
  match m.get_operand_value instruction instruction.target with
  | some (Except.ok target) => StepResult.ok true { m with stack := target :: m.stack }
  | some (Except.error e) => StepResult.err e m
  | none => StepResult.panic

/-- `Rsmisc::uld` of src/rsmisc.rs. The pop happens before the target match,
so the CT error path has already consumed the value; the empty-stack path is
NO_ELEMENTS_IN_STACK (-4) and leaves the machine untouched. -/
def Rsmisc.uld (m : Rsmisc) (instruction : Instruction) : StepResult :=
  match m.stack with
  | value :: rest =>
    match instruction.target with
    | Operand.R1 =>
      StepResult.ok true { m with registers := updReg m.registers 0 value, stack := rest }
    | Operand.R2 =>
      StepResult.ok true { m with registers := updReg m.registers 1 value, stack := rest }
    | Operand.R3 =>
      StepResult.ok true { m with registers := updReg m.registers 2 value, stack := rest }
    | Operand.R4 =>
      StepResult.ok true { m with registers := updReg m.registers 3 value, stack := rest }
    | Operand.IP => StepResult.ok true { m with ip := value, stack := rest }
    | Operand.CT => StepResult.err { code := -5 } { m with stack := rest }
    | Operand.MA =>
      match Rsmisc.store_16 { m with stack := rest } instruction.target_imm value with
      | some m2 => StepResult.ok true m2
      | none => StepResult.panic
  | [] => StepResult.err { code := -4 } m

/-- `Rsmisc::bz` of src/rsmisc.rs: if the resolved target is zero, `ip` is
overwritten with the resolved source; otherwise the state is untouched. -/
def Rsmisc.bz (m : Rsmisc) (instruction : Instruction) : StepResult :=
  match m.get_operand_value instruction instruction.target,
      m.get_operand_value instruction instruction.source with
  | some (Except.ok target), some (Except.ok source) =>
    StepResult.ok true (if target = 0 then { m with ip := source } else m)
  | some (Except.ok _), some (Except.error e) => StepResult.err e m
  | some (Except.error e), some (Except.ok _) => StepResult.err e m
  | some (Except.error e), some (Except.error _) => StepResult.err e m
  | none, _ => StepResult.panic
  | _, none => StepResult.panic

/-- `Rsmisc::swi` of src/rsmisc.rs: immediate `0x0` prints
`char::from_u32(registers[0])` when it is a valid scalar value (console
side effect, not part of the state; `swi` takes `&self`) and continues;
every other immediate is UNIMPLEMENTED_SOFTWARE_INTERRUPT (-3). -/
def Rsmisc.swi (m : Rsmisc) (instruction : Instruction) : StepResult :=
  match instruction.target_imm with
  | 0x0 => StepResult.ok true m
  | _ => StepResult.err { code := -3 } m

/-- `Rsmisc::call` of src/rsmisc.rs: pushes the current `ip` (already
advanced past the CALL by `execute_next`) and overwrites `ip` with the
resolved target. -/
def Rsmisc.call (m : Rsmisc) (instruction : Instruction) : StepResult :=
  match m.get_operand_value instruction instruction.target with
  | some (Except.ok target) =>
    StepResult.ok true { m with call_stack := m.ip :: m.call_stack, ip := target }
  | some (Except.error e) => StepResult.err e m
  | none => StepResult.panic

/-- `Rsmisc::ret` of src/rsmisc.rs: pops the call stack into `ip`; the
empty-stack path is CALL_STACK_EMPTY (-2) and leaves the machine
untouched. -/
def Rsmisc.ret (m : Rsmisc) (_instruction : Instruction) : StepResult :=
  match m.call_stack with
  | value :: rest => StepResult.ok true { m with ip := value, call_stack := rest }
  | [] => StepResult.err { code := -2 } m

/-- `Rsmisc::nop` of src/rsmisc.rs. -/
def Rsmisc.nop (m : Rsmisc) (_instruction : Instruction) : StepResult :=
  StepResult.ok true m

/-- `Rsmisc::execute_next` of src/rsmisc.rs: fetch via `load_32` at `ip`,
decode via `Instruction::from`, add 4 to `ip` (`self.ip += 0x4`, before the
dispatch — the u16 addition cannot overflow here because a fetch at
`ip ≥ 0xfffc` already panicked), then dispatch on the opcode. -/
def Rsmisc.execute_next (m : Rsmisc) : StepResult :=
  match m.load_32 m.ip with
  | some (Except.ok dword) =>
    let instruction := Instruction.fromTword dword
    let m2 := { m with ip := m.ip + 0x4 }
    match instruction.op_code with
    | Opcode.HALT => m2.halt instruction
    | Opcode.ADD => m2.add instruction
    | Opcode.SUB => m2.sub instruction
    | Opcode.MUL => m2.mul instruction
    | Opcode.DIV => m2.div instruction
    | Opcode.MOV => m2.mov instruction
    | Opcode.LD => m2.ld instruction
    | Opcode.ULD => m2.uld instruction
    | Opcode.BZ => m2.bz instruction
    | Opcode.SWI => m2.swi instruction
    | Opcode.CALL => m2.call instruction
    | Opcode.RET => m2.ret instruction
    | Opcode.NOP => m2.nop instruction
  | some (Except.error e) => StepResult.err e m
  | none => StepResult.panic

/-- The zero-initialized machine (what `Rsmisc::new(&vec![])` builds). -/
def m_zero : Rsmisc :=
  { memory := fun _ => 0, ip := 0, registers := fun _ => 0, stack := [], call_stack := [] }

/-- A machine whose memory holds the first bytes of the 48-bit CALL word
`0x0A0000000C00` at address 0 (byte 0x0A at 0, byte 0x0C at 4). -/
def m_callprog : Rsmisc :=
  { m_zero with memory := fun a => if a = 0 then 0x0A else if a = 4 then 0x0C else 0 }

/-- `DIV R1 R2` as a decoded instruction. -/
def i_div : Instruction :=
  { op_code := Opcode.DIV, target := Operand.R1, source := Operand.R2,
    target_imm := 0, source_imm := 0 }

/-- A machine with `registers[0] = 7` and `registers[1] = 0`. -/
def m_div0 : Rsmisc :=
  { m_zero with ip := 4, registers := fun x => if x = 0 then 7 else 0 }

/-- A machine with `registers[0] = 7` and `registers[1] = 2`. -/
def m_div2 : Rsmisc :=
  { m_zero with ip := 4, registers := fun x => if x = 0 then 7 else if x = 1 then 2 else 0 }

/-- `SWI #0x1` as a decoded instruction. -/
def i_swi1 : Instruction :=
  { op_code := Opcode.SWI, target := Operand.R1, source := Operand.R1,
    target_imm := 0x1, source_imm := 0 }

/-- An arbitrary decoded instruction, for handlers that ignore their
instruction argument's fields. -/
def i_any : Instruction :=
  { op_code := Opcode.NOP, target := Operand.R1, source := Operand.R1,
    target_imm := 0, source_imm := 0 }

/-- `CALL R1` as a decoded instruction. -/
def i_call : Instruction :=
  { op_code := Opcode.CALL, target := Operand.R1, source := Operand.R1,
    target_imm := 0, source_imm := 0 }

/-- `RET` as a decoded instruction. -/
def i_ret : Instruction :=
  { op_code := Opcode.RET, target := Operand.R1, source := Operand.R1,
    target_imm := 0, source_imm := 0 }

/-- `BZ R1 R2` as a decoded instruction. -/
def i_bz : Instruction :=
  { op_code := Opcode.BZ, target := Operand.R1, source := Operand.R2,
    target_imm := 0, source_imm := 0 }

/-- `MOV IP R2` as a decoded instruction. -/
def i_mov_ip : Instruction :=
  { op_code := Opcode.MOV, target := Operand.IP, source := Operand.R2,
    target_imm := 0, source_imm := 0 }

/-- A machine about to run `CALL R1` (dispatch state: `ip` already advanced
to 12, the address right after the CALL; `registers[0] = 100`). -/
def m_call_w : Rsmisc :=
  { m_zero with ip := 12, registers := fun x => if x = 0 then 100 else 0 }

/-- A machine about to run `RET` inside the subroutine at 100, with the
return address 12 on the call stack. -/
def m_ret_w : Rsmisc :=
  { m_zero with ip := 100, call_stack := [12] }

/-- A machine about to run `BZ R1 R2` (`registers[0] = 0`,
`registers[1] = 7`). -/
def m_bz_w : Rsmisc :=
  { m_zero with ip := 16, registers := fun x => if x = 1 then 7 else 0 }

/-- A machine about to run `MOV IP R2` (`registers[1] = 9`). -/
def m_mov_w : Rsmisc :=
  { m_zero with ip := 8, registers := fun x => if x = 1 then 9 else 0 }

/-! ## Helper lemmas -/

theorem and_255_eq_mod (x : Nat) : x &&& 255 = x % 256 := by
  have h : (255 : Nat) = 2 ^ 8 - 1 := by norm_num
  have h2 : (256 : Nat) = 2 ^ 8 := by norm_num
  rw [h, h2, Nat.and_pow_two_sub_one_eq_mod]

theorem lor_shl8_eq_add (a b : Nat) (ha : a < 256) : a ||| b <<< 8 = a + 256 * b := by
  have h1 : b <<< 8 = 2 ^ 8 * b := by rw [Nat.shiftLeft_eq]; ring
  have h2 : (2 : Nat) ^ 8 = 256 := by norm_num
  have ha2 : a < 2 ^ 8 := lt_of_lt_of_eq ha h2.symm
  rw [h1, Nat.lor_comm, ← Nat.mul_add_lt_is_or ha2 b, h2]
  ring

theorem writeProgram_spec (bs : List Nat) : ∀ (memory : Nat → Nat) (address : Nat),
    address + bs.length ≤ MEMSIZE →
    ∃ memory2, writeProgram memory address bs = some memory2 ∧
      ∀ x, memory2 x =
        if address ≤ x ∧ x < address + bs.length then bs.getD (x - address) 0 else memory x := by
  induction bs with
  | nil =>
    intro memory address _
    refine ⟨memory, rfl, fun x => ?_⟩
    have hno : ¬(address ≤ x ∧ x < address + ([] : List Nat).length) := by
      simp only [List.length_nil]
      omega
    rw [if_neg hno]
  | cons b rest ih =>
    intro memory address h
    simp only [List.length_cons] at h
    have haddr : address < MEMSIZE := by omega
    obtain ⟨memory2, hw, hchar⟩ :=
      ih (updMem memory address b) (address + 1) (by omega)
    refine ⟨memory2, ?_, fun x => ?_⟩
    · simp [writeProgram, haddr, hw]
    · rw [hchar x]
      by_cases hx1 : address + 1 ≤ x ∧ x < address + 1 + rest.length
      · rw [if_pos hx1, if_pos (by simp only [List.length_cons]; omega)]
        have hxa : x - address = (x - (address + 1)) + 1 := by omega
        rw [hxa, List.getD_cons_succ]
      · rw [if_neg hx1]
        by_cases hx2 : x = address
        · subst hx2
          rw [if_pos (by simp only [List.length_cons]; omega)]
          simp [updMem]
        · rw [if_neg (by simp only [List.length_cons]; omega), updMem, if_neg hx2]

/-! ## Claim theorems -/

/-- C1: the claim states that `execute_next` fetches the 48-bit word at `ip`
and advances `ip` by exactly 6. The code instead fetches a 32-bit word via
`load_32` and pre-increments `ip` by 4; feeding that 32-bit value to the
48-bit field extraction of `Instruction::from` leaves the opcode byte
(bits 40–47) zero, so the word `0x0A 0x00 0x00 0x00 ...` whose byte 0 is the
CALL opcode executes as HALT, with `ip` advanced by 4, not 6. -/
theorem execute_next_width_bug :
    Rsmisc.execute_next m_callprog = StepResult.ok false { m_callprog with ip := 4 } := rfl

/-- C2: the claim states DIV by zero reports a `DivisionByZero` error and
never crashes. The code computes `target.wrapping_div(source)`, which panics
when `source = 0` (`m_div0` has `registers[0] = 7`, `registers[1] = 0`);
there is no `DivisionByZero` error value anywhere in the source. For
non-zero source the wrapping 16-bit quotient is pushed (7 / 2 = 3). -/
theorem div_by_zero_panics :
    Rsmisc.div m_div0 i_div = StepResult.panic ∧
    Rsmisc.div m_div2 i_div = StepResult.ok true { m_div2 with stack := [3] } :=
  ⟨rfl, rfl⟩

/-- C3: the claim states SWI treats `0x1` as decimal print and continues,
erroring only outside {0x0, 0x1}. The code's `swi` matches only `0x0`; the
immediate `0x1` falls into the catch-all and yields
UNIMPLEMENTED_SOFTWARE_INTERRUPT (-3), while `0x0` continues. -/
theorem swi_one_unimplemented :
    Rsmisc.swi m_zero i_swi1 = StepResult.err { code := -3 } m_zero ∧
    Rsmisc.swi m_zero { i_swi1 with target_imm := 0 } = StepResult.ok true m_zero :=
  ⟨rfl, rfl⟩

/-- C4: the claim states memory is a 65536-byte array and out-of-range
multi-byte accesses return a reported `MemoryFault`. The array is
`[u8; 0xffff]` = 65535 bytes, and a 16-bit load at 0xfffe (bytes
0xfffe/0xffff) or a 32-bit load at 0xfffc panics on the raw array index —
no `MemoryFault` error value exists in the source. -/
theorem memory_bound_bug :
    MEMSIZE = 65535 ∧
    Rsmisc.load_16 m_zero 0xfffe = none ∧
    Rsmisc.load_32 m_zero 0xfffc = none :=
  ⟨rfl, rfl, rfl⟩

/-- C5 counterexample: the claim states bytes 2–3 form the target-immediate
as a big-endian u16 (byte 2 high). For the word `0x000012340000`
(byte 2 = 0x12, byte 3 = 0x34) the decoder produces 0x3412, not 0x1234:
the immediate is assembled byte-swapped. -/
theorem decode_not_big_endian :
    (Instruction.fromTword 0x000012340000).target_imm = 0x3412 ∧
    (Instruction.fromTword 0x000012340000).target_imm ≠ 0x1234 := by
  constructor
  · decide
  · decide

/-- C5 (amended): for every 48-bit word, byte 0 is the opcode, byte 1 the
operand-combination byte, and the immediates are assembled byte-swapped:
target-immediate = byte2 + 256 * byte3 (byte 3 high), source-immediate =
byte4 + 256 * byte5 (byte 5 high); the mapping is total, and every opcode
byte outside 0x0–0xB decodes to NOP. -/
theorem decode_fields (w b0 b1 b2 b3 b4 b5 : Nat)
    (hw : w = b5 + b4 * 256 + b3 * 65536 + b2 * 16777216 + b1 * 4294967296 +
      b0 * 1099511627776)
    (h0 : b0 < 256) (h1 : b1 < 256) (h2 : b2 < 256) (h3 : b3 < 256)
    (h4 : b4 < 256) (h5 : b5 < 256) :
    (Instruction.fromTword w).op_code = Opcode.ofByte b0 ∧
    (Instruction.fromTword w).target = Operand.get_combination_target b1 ∧
    (Instruction.fromTword w).source = Operand.get_combination_source b1 ∧
    (Instruction.fromTword w).target_imm = b2 + 256 * b3 ∧
    (Instruction.fromTword w).source_imm = b4 + 256 * b5 ∧
    (0xB < b0 → (Instruction.fromTword w).op_code = Opcode.NOP) := by
  have p40 : (2 : Nat) ^ 40 = 1099511627776 := by norm_num
  have p32 : (2 : Nat) ^ 32 = 4294967296 := by norm_num
  have p24 : (2 : Nat) ^ 24 = 16777216 := by norm_num
  have p16 : (2 : Nat) ^ 16 = 65536 := by norm_num
  have p8 : (2 : Nat) ^ 8 = 256 := by norm_num
  have e40 : (w >>> 40) &&& 0xff = b0 := by
    rw [Nat.shiftRight_eq_div_pow, p40, and_255_eq_mod]
    omega
  have e32 : (w >>> 32) &&& 0xff = b1 := by
    rw [Nat.shiftRight_eq_div_pow, p32, and_255_eq_mod]
    omega
  have e24 : (w >>> 24) &&& 0xff = b2 := by
    rw [Nat.shiftRight_eq_div_pow, p24, and_255_eq_mod]
    omega
  have e16 : (w >>> 16) &&& 0xff = b3 := by
    rw [Nat.shiftRight_eq_div_pow, p16, and_255_eq_mod]
    omega
  have e8 : (w >>> 8) &&& 0xff = b4 := by
    rw [Nat.shiftRight_eq_div_pow, p8, and_255_eq_mod]
    omega
  have e0 : w &&& 0xff = b5 := by
    rw [and_255_eq_mod]
    omega
  have hop : (Instruction.fromTword w).op_code = Opcode.ofByte b0 := by
    simp only [Instruction.fromTword, e40]
  refine ⟨hop, ?_, ?_, ?_, ?_, ?_⟩
  · simp only [Instruction.fromTword, e32]
  · simp only [Instruction.fromTword, e32]
  · simp only [Instruction.fromTword, e24, e16]
    exact lor_shl8_eq_add b2 b3 h2
  · simp only [Instruction.fromTword, e8, e0]
    exact lor_shl8_eq_add b4 b5 h4
  · intro hb
    rw [hop]
    unfold Opcode.ofByte
    split <;> first | rfl | omega

/-- C5 witness: the amended decode theorem applied to the concrete word
`0x0A0512345678` (CALL, combination 5, immediates 0x12/0x34 and 0x56/0x78). -/
theorem decode_fields_witness :
    (0x0A0512345678 =
      0x78 + 0x56 * 256 + 0x34 * 65536 + 0x12 * 16777216 + 0x05 * 4294967296 +
        0x0A * 1099511627776) ∧
    ((Instruction.fromTword 0x0A0512345678).op_code = Opcode.ofByte 0x0A ∧
    (Instruction.fromTword 0x0A0512345678).target = Operand.get_combination_target 0x05 ∧
    (Instruction.fromTword 0x0A0512345678).source = Operand.get_combination_source 0x05 ∧
    (Instruction.fromTword 0x0A0512345678).target_imm = 0x12 + 256 * 0x34 ∧
    (Instruction.fromTword 0x0A0512345678).source_imm = 0x56 + 256 * 0x78 ∧
    (0xB < 0x0A → (Instruction.fromTword 0x0A0512345678).op_code = Opcode.NOP)) :=
  ⟨by norm_num,
    decode_fields 0x0A0512345678 0x0A 0x05 0x12 0x34 0x56 0x78 (by norm_num)
      (by norm_num) (by norm_num) (by norm_num) (by norm_num) (by norm_num)
      (by norm_num)⟩

/-- C6: executing CALL with resolved target `A` from the dispatch state `m`
(whose `ip` is already the address of the instruction following the CALL)
pushes exactly one return address and lands `ip` on `A`; the RET it reaches
(any state `mr` whose call stack still has that return address on top) pops
exactly one entry, restores `ip` to the instruction following the CALL and
restores the call-stack depth. -/
theorem call_ret_roundtrip (m mr : Rsmisc) (i ir : Instruction) (A : Nat)
    (hc : m.get_operand_value i i.target = some (Except.ok A))
    (hs : mr.call_stack = m.ip :: m.call_stack) :
    ∃ m1 m2, Rsmisc.call m i = StepResult.ok true m1 ∧
      m1.ip = A ∧ m1.call_stack.length = m.call_stack.length + 1 ∧
      Rsmisc.ret mr ir = StepResult.ok true m2 ∧
      m2.ip = m.ip ∧ m2.call_stack = m.call_stack := by
  refine ⟨{ m with call_stack := m.ip :: m.call_stack, ip := A },
    { mr with ip := m.ip, call_stack := m.call_stack }, ?_, rfl, by simp, ?_, rfl, rfl⟩
  · simp [Rsmisc.call, hc]
  · simp [Rsmisc.ret, hs]

/-- C6 witness: CALL R1 (registers[0] = 100) from dispatch state with
ip = 12, then RET with 12 on top of the call stack. -/
theorem call_ret_roundtrip_witness :
    Rsmisc.get_operand_value m_call_w i_call i_call.target = some (Except.ok 100) ∧
    m_ret_w.call_stack = m_call_w.ip :: m_call_w.call_stack ∧
    (∃ m1 m2, Rsmisc.call m_call_w i_call = StepResult.ok true m1 ∧
      m1.ip = 100 ∧ m1.call_stack.length = m_call_w.call_stack.length + 1 ∧
      Rsmisc.ret m_ret_w i_ret = StepResult.ok true m2 ∧
      m2.ip = m_call_w.ip ∧ m2.call_stack = m_call_w.call_stack) :=
  ⟨rfl, rfl, call_ret_roundtrip m_call_w m_ret_w i_call i_ret 100 rfl rfl⟩

/-- C7: ULD on an empty evaluation stack yields NO_ELEMENTS_IN_STACK (-4)
and returns the machine unchanged (no register is written), and RET on an
empty call stack yields CALL_STACK_EMPTY (-2) and returns the machine
unchanged (`ip` keeps its post-fetch value). -/
theorem uld_ret_on_empty (m : Rsmisc) (i ir : Instruction) :
    (m.stack = [] → Rsmisc.uld m i = StepResult.err { code := -4 } m) ∧
    (m.call_stack = [] → Rsmisc.ret m ir = StepResult.err { code := -2 } m) := by
  constructor
  · intro h
    simp [Rsmisc.uld, h]
  · intro h
    simp [Rsmisc.ret, h]

/-- C7 witness: the zeroed machine has both stacks empty; ULD and RET on it
return the reported errors with the machine untouched. -/
theorem uld_ret_on_empty_witness :
    m_zero.stack = [] ∧ m_zero.call_stack = [] ∧
    Rsmisc.uld m_zero i_any = StepResult.err { code := -4 } m_zero ∧
    Rsmisc.ret m_zero i_any = StepResult.err { code := -2 } m_zero :=
  ⟨rfl, rfl, (uld_ret_on_empty m_zero i_any i_any).1 rfl,
    (uld_ret_on_empty m_zero i_any i_any).2 rfl⟩

/-- C8: BZ with resolved target 0 ends the step with `ip` equal to the
resolved source (the next fetch happens there, since `execute_next` fetches
at `ip` and increments before dispatch); with non-zero resolved target the
machine is left unchanged, so the next fetch is the already-incremented
fall-through address. -/
theorem bz_semantics (m : Rsmisc) (i : Instruction) (t s : Nat)
    (ht : m.get_operand_value i i.target = some (Except.ok t))
    (hs : m.get_operand_value i i.source = some (Except.ok s)) :
    (t = 0 → Rsmisc.bz m i = StepResult.ok true { m with ip := s }) ∧
    (t ≠ 0 → Rsmisc.bz m i = StepResult.ok true m) := by
  constructor
  · intro h0
    subst h0
    simp [Rsmisc.bz, ht, hs]
  · intro hne
    simp [Rsmisc.bz, ht, hs, hne]

/-- C8 witness: BZ R1 R2 with registers[0] = 0 and registers[1] = 7 jumps
to 7. -/
theorem bz_semantics_witness :
    Rsmisc.get_operand_value m_bz_w i_bz i_bz.target = some (Except.ok 0) ∧
    Rsmisc.get_operand_value m_bz_w i_bz i_bz.source = some (Except.ok 7) ∧
    Rsmisc.bz m_bz_w i_bz = StepResult.ok true { m_bz_w with ip := 7 } :=
  ⟨rfl, rfl, (bz_semantics m_bz_w i_bz 0 7 rfl rfl).1 rfl⟩

/-- C9: for every program no longer than the memory array, `Rsmisc::new`
succeeds and yields the initial state: program bytes at the low addresses,
zeros elsewhere, `ip = 0`, all four registers 0, both stacks empty. -/
theorem new_initial_state (program : List Nat) (h : program.length ≤ MEMSIZE) :
    ∃ m, Rsmisc.new program = some m ∧
      m.ip = 0 ∧ (∀ r : Fin 4, m.registers r = 0) ∧ m.stack = [] ∧ m.call_stack = [] ∧
      (∀ a, a < program.length → m.memory a = program.getD a 0) ∧
      (∀ a, program.length ≤ a → m.memory a = 0) := by
  obtain ⟨memory2, hw, hchar⟩ := writeProgram_spec program (fun _ => 0) 0 (by omega)
  refine ⟨⟨memory2, 0, fun _ => 0, [], []⟩, ?_, rfl, fun r => rfl, rfl, rfl, ?_, ?_⟩
  · simp [Rsmisc.new, hw]
  · intro a ha
    show memory2 a = program.getD a 0
    rw [hchar a, if_pos (by omega)]
    simp
  · intro a ha
    show memory2 a = 0
    rw [hchar a, if_neg (by omega)]

/-- C9 witness: the initial-state theorem applied to the program [1, 2, 3]. -/
theorem new_initial_state_witness :
    ([1, 2, 3] : List Nat).length ≤ MEMSIZE ∧
    (∃ m, Rsmisc.new [1, 2, 3] = some m ∧
      m.ip = 0 ∧ (∀ r : Fin 4, m.registers r = 0) ∧ m.stack = [] ∧ m.call_stack = [] ∧
      (∀ a, a < ([1, 2, 3] : List Nat).length → m.memory a = ([1, 2, 3] : List Nat).getD a 0) ∧
      (∀ a, ([1, 2, 3] : List Nat).length ≤ a → m.memory a = 0)) :=
  ⟨by decide, new_initial_state [1, 2, 3] (by decide)⟩

/-- C10: MOV whose target operand is IP ends the step with `ip` equal to the
resolved source value; `execute_next` increments `ip` before the dispatch,
so the handler's write is the final value of `ip` for that step and the next
fetch happens exactly there. -/
theorem mov_ip_final (m : Rsmisc) (i : Instruction) (s : Nat)
    (htgt : i.target = Operand.IP)
    (hs : m.get_operand_value i i.source = some (Except.ok s)) :
    Rsmisc.mov m i = StepResult.ok true { m with ip := s } := by
  simp [Rsmisc.mov, hs, htgt]

/-- C10 witness: MOV IP R2 with registers[1] = 9 sets ip to 9. -/
theorem mov_ip_final_witness :
    i_mov_ip.target = Operand.IP ∧
    Rsmisc.get_operand_value m_mov_w i_mov_ip i_mov_ip.source = some (Except.ok 9) ∧
    Rsmisc.mov m_mov_w i_mov_ip = StepResult.ok true { m_mov_w with ip := 9 } :=
  ⟨rfl, rfl, mov_ip_final m_mov_w i_mov_ip 9 rfl rfl⟩
